import Mathlib

/-!
Verification development for the Sandbox Execution Engine
(`src/core/sandbox-manager.js`) of the ai-development-platform repository.

The implementation file `src/core/sandbox-manager.js` is not present in the
source tree; only its test suites (`tests/sandbox-manager.test.js`) and design
checklists are. The definitions below are therefore modelled from the
specification (spec.md, sections 3, 4, 7 and 8), cross-checked against the
expectations pinned down by the test suites.

Paths are embedded as lists of segments of an absolute path
(`/tmp/sandbox/s1` is `["tmp", "sandbox", "s1"]`); relative paths may contain
`".."` and `"."` segments which are resolved exactly as the platform path
resolution does (`".."` pops a segment, `"."` and empty segments are ignored).
The manager's observable effects (files written to the host, commands issued
inside containers, the active-container registry) are threaded through an
explicit state record, and every fallible operation returns an
`Except SandboxErr` result paired with the state after the call.
-/

namespace SandboxManager

/-- Error taxonomy of the engine (spec section 7): every rejected operation
carries a specific error kind, never a generic failure. -/
inductive SandboxErr where
  | sandboxError
  | containerCreationError
  | commandExecutionError
  | commandTimeoutError
  | fileSystemError
  | securityViolationError
  | resourceLimitError
  deriving DecidableEq, Repr

/-- Resolves a relative path (second argument) against a base path given as an
accumulator of already-resolved segments: `".."` pops the last segment, `"."`
and empty segments are skipped, every other segment is appended. This models
platform path resolution of `base + "/" + rel` followed by normalisation. -/
def resolveSegs : List String → List String → List String
  | acc, [] => acc
  | acc, s :: rest =>
    if s = ".." then resolveSegs acc.dropLast rest
    else if s = "." ∨ s = "" then resolveSegs acc rest
    else resolveSegs (acc ++ [s]) rest

/-- `initialSegs root p` holds when `root` is an initial run of segments of
`p` (the segment-list form of a string `startsWith` check on paths). -/
def initialSegs : List String → List String → Bool
  | [], _ => true
  | _ :: _, [] => false
  | a :: as, b :: bs => a = b && initialSegs as bs

/-- A resolved path is a descendant of `root` when `root` is a proper initial
run of its segments: the path lies strictly below `root`. -/
def isDescendant (root p : List String) : Bool :=
  initialSegs root p && decide (root.length < p.length)

/-- A mount spec (spec section 3): host path, container path, read-only flag. -/
structure MountSpec where
  hostPath : List String
  containerPath : List String
  readOnly : Bool
  deriving DecidableEq, Repr

/-- The result of a command execution (spec section 3): verbatim exit code,
captured stdout and stderr, wall-clock duration. -/
structure ExecutionResult where
  exitCode : Int
  output : String
  stderr : String
  durationMs : Nat
  deriving DecidableEq, Repr

/-- Behaviour of the process the container runtime runs for one exec: how many
milliseconds until it signals completion, and the exit code and streams it
produces. This is the oracle for the container-runtime side of an exec. -/
structure ProcBehavior where
  duration : Nat
  exitCode : Int
  output : String
  stderr : String
  deriving DecidableEq, Repr

/-- Options accepted by `executeCommand`. -/
structure ExecOptions where
  timeoutMs : Option Nat
  deriving DecidableEq, Repr

/-- Observable state of the sandbox manager: the configured temp root, the
host-side files and directories it has produced, the active-container
registry, the runtime's view of which containers exist and run, the log of
commands issued inside containers, the container-side file system used by
repository reads, and the configured default command timeout. -/
structure ManagerState where
  tempHostDir : List String
  hostFiles : List (List String × String)
  hostDirs : List (List String)
  activeContainers : List String
  running : List String
  present : List String
  issuedCommands : List (String × List String)
  containerFiles : List (List String × String)
  defaultTimeoutMs : Nat
  deriving DecidableEq, Repr

/-- Container-side directory where project files are mounted. -/
def containerWorkDir : List String := ["sandbox_project"]

/-- Container-side path of a cloned repository. -/
def cloneRoot : List String := ["sandbox_project", "cloned_repo"]

/-- Modelled from the spec: `prepareProjectFilesForMount` of the missing
`src/core/sandbox-manager.js` (spec section 4.2). For each entry of the file
map it resolves `sessionDir + relativePath` and rejects with
`SecurityViolationError` if the resolved path is not a descendant of
`sessionDir`, before writing anything; otherwise it writes every file to the
host and returns read-only mount specs. -/
def prepareProjectFilesForMount (st : ManagerState) (sessionDir : List String)
    (files : List (List String × String)) :
    Except SandboxErr (List MountSpec) × ManagerState :=
  if files.all (fun f => isDescendant sessionDir (resolveSegs sessionDir f.1)) then
    let mounts := files.map (fun f =>
      MountSpec.mk (resolveSegs sessionDir f.1) (resolveSegs containerWorkDir f.1) true)
    let written := files.map (fun f => (resolveSegs sessionDir f.1, f.2))
    (.ok mounts, { st with hostFiles := st.hostFiles ++ written })
  else
    (.error .securityViolationError, st)

/-- Numeric value of a list of decimal digit characters. -/
def digitsToNat (ds : List Char) : Nat :=
  ds.foldl (fun n c => n * 10 + (c.toNat - 48)) 0

/-- Modelled from the spec: `parseMemoryLimit` of the missing
`src/core/sandbox-manager.js`. A memory-limit string is a non-empty run of
decimal digits followed by the unit `m` (mebibytes) or `g` (gibibytes); any
other string raises `SandboxError` (pinned by the constructor test:
`512m` is `512 * 1024 * 1024`, `1g` is `1024 * 1024 * 1024`, `invalid`
throws). -/
def parseMemoryLimit (s : String) : Except SandboxErr Nat :=
  match s.data.reverse with
  | [] => .error .sandboxError
  | u :: rev =>
    let ds := rev.reverse
    if ds ≠ [] ∧ ds.all Char.isDigit then
      if u = 'm' then .ok (digitsToNat ds * (1024 * 1024))
      else if u = 'g' then .ok (digitsToNat ds * (1024 * 1024 * 1024))
      else .error .sandboxError
    else .error .sandboxError

/-- The number-plus-unit format accepted by `parseMemoryLimit`: a non-empty
run of decimal digits followed by `m` or `g`. -/
def memFormat (s : String) : Prop :=
  ∃ ds u, ds ≠ [] ∧ (∀ c ∈ ds, c.isDigit) ∧ (u = 'm' ∨ u = 'g') ∧ s.data = ds ++ [u]

/-- `initialChars pre cs` holds when `pre` is an initial run of the characters
`cs` (the character-list form of a string `startsWith` check). -/
def initialChars : List Char → List Char → Bool
  | [], _ => true
  | _ :: _, [] => false
  | a :: as, b :: bs => a = b && initialChars as bs

/-- A repository URL uses the secure transport scheme when it starts with
`https://`. -/
def isHttpsUrl (url : String) : Bool :=
  initialChars ("https://".data) url.data

/-- Options accepted by `cloneRepository`. -/
structure CloneOptions where
  branch : Option String
  deriving DecidableEq, Repr

/-- The git command `cloneRepository` issues inside the container. -/
def cloneCmd (url : String) (branch : Option String) : List String :=
  match branch with
  | some b => ["git", "clone", "--branch", b, url, "."]
  | none => ["git", "clone", url, "."]

/-- Handle returned by a successful clone (spec section 3): host scratch path,
container-side clone path and the id of the container holding the clone. -/
structure RepoHandle where
  sessionHostDir : List String
  repoContainerPath : List String
  containerId : String
  deriving DecidableEq, Repr

/-- Modelled from the spec: `cloneRepository` of the missing
`src/core/sandbox-manager.js` (spec section 4.4). Rejects immediately with
`SecurityViolationError` for any URL not using the secure transport scheme,
before issuing any command; otherwise it creates a fresh container (added to
the registry and the runtime), issues the git clone command inside it, and
surfaces a non-zero clone exit code as `CommandExecutionError`. The runtime
outcome of the clone is the oracle arguments `cid` (the fresh container's id)
and `cloneExit` (the exit code the runtime reports for the clone). -/
def cloneRepository (st : ManagerState) (url : String) (opts : CloneOptions)
    (cid : String) (cloneExit : Int) :
    Except SandboxErr RepoHandle × ManagerState :=
  if isHttpsUrl url then
    let st1 := { st with
      activeContainers := st.activeContainers ++ [cid],
      running := st.running ++ [cid],
      present := st.present ++ [cid],
      issuedCommands := st.issuedCommands ++ [(cid, cloneCmd url opts.branch)] }
    if cloneExit = 0 then
      (.ok ⟨st.tempHostDir, cloneRoot, cid⟩, st1)
    else
      (.error .commandExecutionError, st1)
  else
    (.error .securityViolationError, st)

/-- Modelled from the spec: `executeCommand` of the missing
`src/core/sandbox-manager.js` (spec sections 4.3 and 6). A non-existent or
non-running container fails with `CommandExecutionError` before any command
is issued. Otherwise the exec is issued; if the effective timeout (the
option's `timeoutMs`, defaulting to the configured `commandTimeoutMs`)
elapses before the process signals completion the call fails with
`CommandTimeoutError`, leaving the container registered and running; on
normal completion it returns the runtime's exit code and captured streams
verbatim. `proc` is the oracle for the runtime side of the exec. -/
def executeCommand (st : ManagerState) (cid : String) (argv : List String)
    (opts : ExecOptions) (proc : ProcBehavior) :
    Except SandboxErr ExecutionResult × ManagerState :=
  if cid ∈ st.running then
    let st1 := { st with issuedCommands := st.issuedCommands ++ [(cid, argv)] }
    let effTimeout := opts.timeoutMs.getD st.defaultTimeoutMs
    if effTimeout < proc.duration then
      (.error .commandTimeoutError, st1)
    else
      (.ok ⟨proc.exitCode, proc.output, proc.stderr, proc.duration⟩, st1)
  else
    (.error .commandExecutionError, st)

/-- Modelled from the spec: `cleanupContainer` of the missing
`src/core/sandbox-manager.js` (spec section 4.5). Stops the container
(tolerating "not running"), removes it (tolerating "not found"), and removes
the id from the active registry; it never throws. -/
def cleanupContainer (st : ManagerState) (cid : String) :
    Except SandboxErr Unit × ManagerState :=
  (.ok (), { st with
    running := st.running.filter (fun c => c ≠ cid),
    present := st.present.filter (fun c => c ≠ cid),
    activeContainers := st.activeContainers.filter (fun c => c ≠ cid) })

/-- Modelled from the spec: `readRepositoryFile` of the missing
`src/core/sandbox-manager.js` (spec section 4.4). Validates that the resolved
path is a descendant of the repository's clone path (else
`SecurityViolationError`, with no command executed), then reads the content
via the execution engine; a nonexistent file surfaces as `FileSystemError`. -/
def readRepositoryFile (st : ManagerState) (cid : String) (p : List String) :
    Except SandboxErr String × ManagerState :=
  let resolved := resolveSegs [] p
  if isDescendant cloneRoot resolved then
    let st1 := { st with issuedCommands := st.issuedCommands ++ [(cid, "cat" :: resolved)] }
    match st.containerFiles.lookup resolved with
    | some content => (.ok content, st1)
    | none => (.error .fileSystemError, st1)
  else
    (.error .securityViolationError, st)

/-- Modelled from the spec: `cleanupSessionHostDir` of the missing
`src/core/sandbox-manager.js` (spec section 4.2). Rejects with
`SecurityViolationError` if the host path is not a descendant of the
configured temp root, before any deletion; otherwise recursively removes the
directory and everything below it, tolerating "already absent". -/
def cleanupSessionHostDir (st : ManagerState) (hostPath : List String) :
    Except SandboxErr Unit × ManagerState :=
  let resolved := resolveSegs [] hostPath
  if isDescendant st.tempHostDir resolved then
    (.ok (), { st with
      hostDirs := st.hostDirs.filter (fun d => !initialSegs resolved d),
      hostFiles := st.hostFiles.filter (fun f => !initialSegs resolved f.1) })
  else
    (.error .securityViolationError, st)

/-- A concrete state used by the witnesses: configuration as in the test
suites (temp root `/tmp/sandbox`), one registered running container `c1`,
one session directory, and one file inside the cloned repository. -/
def demoState : ManagerState :=
  { tempHostDir := ["tmp", "sandbox"]
    hostFiles := [(["tmp", "sandbox", "session1", "old.txt"], "old")]
    hostDirs := [["tmp", "sandbox", "session1"]]
    activeContainers := ["c1"]
    running := ["c1"]
    present := ["c1"]
    issuedCommands := []
    containerFiles := [(["sandbox_project", "cloned_repo", "file.txt"], "file content")]
    defaultTimeoutMs := 30000 }

theorem initialSegs_refl (l : List String) : initialSegs l l = true := by
  induction l with
  | nil => rfl
  | cons a l ih => simp [initialSegs, ih]

theorem filter_idem {α : Type} (p : α → Bool) (l : List α) :
    (l.filter p).filter p = l.filter p := by
  induction l with
  | nil => rfl
  | cons a l ih => cases h : p a <;> simp [List.filter_cons, h, ih]

/-- Claim C1: for every session directory and every file map passed to
`prepareProjectFilesForMount`, if any relative-path key resolves to a path
that is not a descendant of the session directory, the call rejects with
`SecurityViolationError` and no file write to the host occurs: the state is
returned unchanged. -/
theorem prepareFiles_traversal_rejected (st : ManagerState) (sessionDir : List String)
    (files : List (List String × String))
    (h : ∃ f ∈ files, isDescendant sessionDir (resolveSegs sessionDir f.1) = false) :
    prepareProjectFilesForMount st sessionDir files = (.error .securityViolationError, st) := by
  have hall : (files.all fun f => isDescendant sessionDir (resolveSegs sessionDir f.1)) = false := by
    rw [List.all_eq_false]
    obtain ⟨f, hf, hd⟩ := h
    exact ⟨f, hf, by simp [hd]⟩
  simp [prepareProjectFilesForMount, hall]

theorem prepareFiles_traversal_witness :
    prepareProjectFilesForMount demoState ["tmp", "sandbox", "session1"]
        [(["..", "..", "..", "etc", "passwd"], "malicious content")]
      = (.error .securityViolationError, demoState) :=
  prepareFiles_traversal_rejected demoState ["tmp", "sandbox", "session1"]
    [(["..", "..", "..", "etc", "passwd"], "malicious content")] (by decide)

/-- Claim C8: every mount spec returned by `prepareProjectFilesForMount` for
staged source files is read-only; for an input map of `n` valid entries the
call writes exactly `n` files to the host and returns exactly `n` read-only
mount specs. -/
theorem prepareFiles_readonly_mounts (st : ManagerState) (sessionDir : List String)
    (files : List (List String × String))
    (h : ∀ f ∈ files, isDescendant sessionDir (resolveSegs sessionDir f.1) = true) :
    ∃ mounts,
      (prepareProjectFilesForMount st sessionDir files).1 = .ok mounts
      ∧ mounts.length = files.length
      ∧ (∀ m ∈ mounts, m.readOnly = true)
      ∧ (prepareProjectFilesForMount st sessionDir files).2.hostFiles.length
          = st.hostFiles.length + files.length := by
  have hall : (files.all fun f => isDescendant sessionDir (resolveSegs sessionDir f.1)) = true :=
    List.all_eq_true.mpr h
  refine ⟨files.map (fun f =>
    MountSpec.mk (resolveSegs sessionDir f.1) (resolveSegs containerWorkDir f.1) true),
    ?_, ?_, ?_, ?_⟩
  · simp [prepareProjectFilesForMount, hall]
  · simp
  · intro m hm
    obtain ⟨f, _, rfl⟩ := List.mem_map.mp hm
    rfl
  · simp [prepareProjectFilesForMount, hall]

theorem prepareFiles_readonly_witness :
    ∃ mounts,
      (prepareProjectFilesForMount demoState ["tmp", "sandbox", "session1"]
          [(["src", "main.js"], "console.log(1);"), (["package.json"], "name test")]).1
        = .ok mounts
      ∧ mounts.length = 2
      ∧ (∀ m ∈ mounts, m.readOnly = true)
      ∧ (prepareProjectFilesForMount demoState ["tmp", "sandbox", "session1"]
          [(["src", "main.js"], "console.log(1);"), (["package.json"], "name test")]).2.hostFiles.length
        = demoState.hostFiles.length + 2 :=
  prepareFiles_readonly_mounts demoState ["tmp", "sandbox", "session1"]
    [(["src", "main.js"], "console.log(1);"), (["package.json"], "name test")] (by decide)

/-- Claim C2: for every repository URL not using the HTTPS transport scheme,
`cloneRepository` rejects with `SecurityViolationError` before any command is
issued inside any container: the state, in particular the issued-command log,
is returned unchanged. -/
theorem cloneRepository_insecure_rejected (st : ManagerState) (url : String)
    (opts : CloneOptions) (cid : String) (cloneExit : Int)
    (h : isHttpsUrl url = false) :
    cloneRepository st url opts cid cloneExit = (.error .securityViolationError, st)
    ∧ (cloneRepository st url opts cid cloneExit).2.issuedCommands = st.issuedCommands := by
  simp [cloneRepository, h]

theorem cloneRepository_insecure_witness :
    isHttpsUrl "git@github.com:user/repo.git" = false
    ∧ cloneRepository demoState "git@github.com:user/repo.git" ⟨none⟩ "c2" 0
        = (.error .securityViolationError, demoState) :=
  ⟨by decide,
   (cloneRepository_insecure_rejected demoState "git@github.com:user/repo.git" ⟨none⟩ "c2" 0
     (by decide)).1⟩

/-- Claim C7: for every container id that does not name an existing, running
container, `executeCommand` fails with `CommandExecutionError` and never
returns a result: the state is returned unchanged. -/
theorem executeCommand_dead_container (st : ManagerState) (cid : String)
    (argv : List String) (opts : ExecOptions) (proc : ProcBehavior)
    (h : cid ∉ st.running) :
    executeCommand st cid argv opts proc = (.error .commandExecutionError, st) := by
  simp [executeCommand, h]

theorem executeCommand_dead_witness :
    executeCommand demoState "nonexistent-id" ["echo", "test"] ⟨none⟩ ⟨1, 0, "test", ""⟩
      = (.error .commandExecutionError, demoState) :=
  executeCommand_dead_container demoState "nonexistent-id" ["echo", "test"] ⟨none⟩
    ⟨1, 0, "test", ""⟩ (by decide)

/-- Claim C3: for every command whose `timeoutMs` elapses before the process
signals completion, `executeCommand` fails with `CommandTimeoutError`, and the
container is not torn down by the timeout: the registry and runtime state are
unchanged, the container is still registered, and it can still be cleaned up
independently afterward (the cleanup completes and deregisters it). -/
theorem executeCommand_timeout_keeps_container (st : ManagerState) (cid : String)
    (argv : List String) (t : Nat) (proc : ProcBehavior)
    (hreg : cid ∈ st.activeContainers) (hrun : cid ∈ st.running)
    (ht : t < proc.duration) :
    (executeCommand st cid argv ⟨some t⟩ proc).1 = .error .commandTimeoutError
    ∧ (executeCommand st cid argv ⟨some t⟩ proc).2.activeContainers = st.activeContainers
    ∧ (executeCommand st cid argv ⟨some t⟩ proc).2.running = st.running
    ∧ cid ∈ (executeCommand st cid argv ⟨some t⟩ proc).2.activeContainers
    ∧ (cleanupContainer (executeCommand st cid argv ⟨some t⟩ proc).2 cid).1 = .ok ()
    ∧ cid ∉ (cleanupContainer (executeCommand st cid argv ⟨some t⟩ proc).2 cid).2.activeContainers := by
  simp [executeCommand, cleanupContainer, hrun, hreg, ht, List.mem_filter]

theorem executeCommand_timeout_witness :
    (executeCommand demoState "c1" ["sleep", "10"] ⟨some 100⟩ ⟨1000, 0, "", ""⟩).1
        = .error .commandTimeoutError
    ∧ "c1" ∈ (executeCommand demoState "c1" ["sleep", "10"] ⟨some 100⟩ ⟨1000, 0, "", ""⟩).2.activeContainers
    ∧ "c1" ∉ (cleanupContainer
        (executeCommand demoState "c1" ["sleep", "10"] ⟨some 100⟩ ⟨1000, 0, "", ""⟩).2 "c1").2.activeContainers :=
  have h := executeCommand_timeout_keeps_container demoState "c1" ["sleep", "10"] 100
    ⟨1000, 0, "", ""⟩ (by decide) (by decide) (by decide)
  ⟨h.1, h.2.2.2.1, h.2.2.2.2.2⟩

/-- Claim C4: `cleanupContainer` is idempotent: for every state and container
id the call completes without throwing, the id is gone from the active
registry afterward (and the container is stopped and removed from the
runtime), and a second call on the same id, or a call on an id that was never
registered, is a no-op that does not throw. -/
theorem cleanupContainer_idempotent (st : ManagerState) (cid : String) :
    (cleanupContainer st cid).1 = .ok ()
    ∧ cid ∉ (cleanupContainer st cid).2.activeContainers
    ∧ cid ∉ (cleanupContainer st cid).2.running
    ∧ cid ∉ (cleanupContainer st cid).2.present
    ∧ cleanupContainer (cleanupContainer st cid).2 cid = cleanupContainer st cid := by
  refine ⟨rfl, ?_, ?_, ?_, ?_⟩
  · simp [cleanupContainer, List.mem_filter]
  · simp [cleanupContainer, List.mem_filter]
  · simp [cleanupContainer, List.mem_filter]
  · simp [cleanupContainer, filter_idem]

/-- Claim C5: for every path that is not a descendant of the repository clone
root, `readRepositoryFile` rejects with `SecurityViolationError` and no
command is executed in the container (the state is returned unchanged); for a
descendant path naming a nonexistent file it fails with `FileSystemError`
rather than returning empty content. -/
theorem readRepositoryFile_guard (st : ManagerState) (cid : String) (p : List String) :
    (isDescendant cloneRoot (resolveSegs [] p) = false →
      readRepositoryFile st cid p = (.error .securityViolationError, st))
    ∧ (isDescendant cloneRoot (resolveSegs [] p) = true →
        List.lookup (resolveSegs [] p) st.containerFiles = none →
      (readRepositoryFile st cid p).1 = .error .fileSystemError) := by
  constructor
  · intro h
    simp [readRepositoryFile, h]
  · intro h hl
    simp [readRepositoryFile, h, hl]

theorem readRepositoryFile_witness :
    readRepositoryFile demoState "c1" ["sandbox_project", "cloned_repo", "..", "..", "secret"]
      = (.error .securityViolationError, demoState)
    ∧ (readRepositoryFile demoState "c1" ["sandbox_project", "cloned_repo", "nope.txt"]).1
      = .error .fileSystemError :=
  ⟨(readRepositoryFile_guard demoState "c1"
      ["sandbox_project", "cloned_repo", "..", "..", "secret"]).1 (by decide),
   (readRepositoryFile_guard demoState "c1"
      ["sandbox_project", "cloned_repo", "nope.txt"]).2 (by decide) (by decide)⟩

/-- Claim C6: on normal completion of `executeCommand` (no timeout, container
running), the returned `ExecutionResult` carries the exit code exactly as
reported by the container runtime and the captured output byte for byte; no
success/failure judgment is applied, so a non-zero exit code is returned as a
result, not raised as an error. -/
theorem executeCommand_normal_verbatim (st : ManagerState) (cid : String)
    (argv : List String) (opts : ExecOptions) (proc : ProcBehavior)
    (hrun : cid ∈ st.running)
    (hdone : proc.duration ≤ opts.timeoutMs.getD st.defaultTimeoutMs) :
    (executeCommand st cid argv opts proc).1
      = .ok ⟨proc.exitCode, proc.output, proc.stderr, proc.duration⟩ := by
  simp [executeCommand, hrun, Nat.not_lt.mpr hdone]

theorem executeCommand_normal_witness :
    (executeCommand demoState "c1" ["eslint", "."] ⟨some 5000⟩ ⟨50, 1, "lint warning", ""⟩).1
      = .ok ⟨1, "lint warning", "", 50⟩ :=
  executeCommand_normal_verbatim demoState "c1" ["eslint", "."] ⟨some 5000⟩
    ⟨50, 1, "lint warning", ""⟩ (by decide) (by decide)

/-- Claim C9: for every host path that is not a descendant of the configured
temp root, `cleanupSessionHostDir` rejects with `SecurityViolationError`
before any deletion (the state is returned unchanged); for a path under the
temp root it recursively removes the directory and everything below it, and
calling it again on the now-absent directory completes without throwing (and
changes nothing). -/
theorem cleanupSessionHostDir_guard (st : ManagerState) (hostPath : List String) :
    (isDescendant st.tempHostDir (resolveSegs [] hostPath) = false →
      cleanupSessionHostDir st hostPath = (.error .securityViolationError, st))
    ∧ (isDescendant st.tempHostDir (resolveSegs [] hostPath) = true →
      (cleanupSessionHostDir st hostPath).1 = .ok ()
      ∧ resolveSegs [] hostPath ∉ (cleanupSessionHostDir st hostPath).2.hostDirs
      ∧ (∀ d ∈ (cleanupSessionHostDir st hostPath).2.hostDirs,
          initialSegs (resolveSegs [] hostPath) d = false)
      ∧ (∀ f ∈ (cleanupSessionHostDir st hostPath).2.hostFiles,
          initialSegs (resolveSegs [] hostPath) f.1 = false)
      ∧ cleanupSessionHostDir (cleanupSessionHostDir st hostPath).2 hostPath
          = (.ok (), (cleanupSessionHostDir st hostPath).2)) := by
  constructor
  · intro h
    simp [cleanupSessionHostDir, h]
  · intro h
    refine ⟨?_, ?_, ?_, ?_, ?_⟩
    · simp [cleanupSessionHostDir, h]
    · simp [cleanupSessionHostDir, h, List.mem_filter, initialSegs_refl]
    · intro d hd
      simp [cleanupSessionHostDir, h, List.mem_filter] at hd
      exact hd.2
    · intro f hf
      simp [cleanupSessionHostDir, h, List.mem_filter] at hf
      exact hf.2
    · simp [cleanupSessionHostDir, h, filter_idem]

theorem cleanupSessionHostDir_witness :
    cleanupSessionHostDir demoState ["etc", "sensitive"]
      = (.error .securityViolationError, demoState)
    ∧ (cleanupSessionHostDir demoState ["tmp", "sandbox", "session1"]).1 = .ok ()
    ∧ resolveSegs [] ["tmp", "sandbox", "session1"]
        ∉ (cleanupSessionHostDir demoState ["tmp", "sandbox", "session1"]).2.hostDirs :=
  ⟨(cleanupSessionHostDir_guard demoState ["etc", "sensitive"]).1 (by decide),
   ((cleanupSessionHostDir_guard demoState ["tmp", "sandbox", "session1"]).2 (by decide)).1,
   ((cleanupSessionHostDir_guard demoState ["tmp", "sandbox", "session1"]).2 (by decide)).2.1⟩

/-- Claim C10: `parseMemoryLimit` converts a memory-limit string of decimal
digits with an `m` suffix to that many mebibytes in bytes (`512m` is
`512 * 1024 * 1024`) and a `g` suffix to gibibytes in bytes (`1g` is
`1024 * 1024 * 1024`), and raises `SandboxError` for every string not
matching the number-plus-unit format. -/
theorem parseMemoryLimit_spec :
    (∀ ds : List Char, ds ≠ [] → (∀ c ∈ ds, c.isDigit) →
      parseMemoryLimit ⟨ds ++ ['m']⟩ = .ok (digitsToNat ds * (1024 * 1024))
      ∧ parseMemoryLimit ⟨ds ++ ['g']⟩ = .ok (digitsToNat ds * (1024 * 1024 * 1024)))
    ∧ parseMemoryLimit "512m" = .ok (512 * 1024 * 1024)
    ∧ parseMemoryLimit "1g" = .ok (1024 * 1024 * 1024)
    ∧ (∀ s : String, ¬ memFormat s → parseMemoryLimit s = .error .sandboxError) := by
  refine ⟨?_, by rfl, by rfl, ?_⟩
  · intro ds hne hdig
    have hall : ds.all Char.isDigit = true := List.all_eq_true.mpr hdig
    constructor
    · simp [parseMemoryLimit, List.reverse_append, hne, hall]
    · simp [parseMemoryLimit, List.reverse_append, hne, hall]
  · intro s hnf
    rcases hrev : s.data.reverse with _ | ⟨u, rev⟩
    · unfold parseMemoryLimit
      rw [hrev]
    · have hdata : s.data = rev.reverse ++ [u] := by
        have := congrArg List.reverse hrev
        simpa using this
      unfold parseMemoryLimit
      rw [hrev]
      by_cases hc : rev.reverse ≠ [] ∧ rev.reverse.all Char.isDigit = true
      · have hu : u ≠ 'm' ∧ u ≠ 'g' := by
          constructor <;> intro hh <;> exact hnf ⟨rev.reverse, u, hc.1,
            fun c hcmem => List.all_eq_true.mp hc.2 c hcmem,
            by simp [hh], hdata⟩
        show (if rev.reverse ≠ [] ∧ rev.reverse.all Char.isDigit = true then _ else _) = _
        rw [if_pos hc, if_neg hu.1, if_neg hu.2]
      · show (if rev.reverse ≠ [] ∧ rev.reverse.all Char.isDigit = true then _ else _) = _
        rw [if_neg hc]

theorem parseMemoryLimit_witness :
    parseMemoryLimit "invalid" = .error .sandboxError
    ∧ parseMemoryLimit ⟨['5', '1', '2'] ++ ['m']⟩
        = .ok (digitsToNat ['5', '1', '2'] * (1024 * 1024)) :=
  ⟨parseMemoryLimit_spec.2.2.2 "invalid" (by
      rintro ⟨ds, u, hne, hdig, hu, heq⟩
      have h1 : ("invalid".data).getLast? = some u := by
        rw [heq]; exact List.getLast?_concat ds
      have h2 : ("invalid".data).getLast? = some 'd' := by decide
      rw [h2] at h1
      rcases hu with hh | hh <;> simp [hh] at h1),
   (parseMemoryLimit_spec.1 ['5', '1', '2'] (by decide) (by decide)).1⟩

end SandboxManager
